import Mathlib

/-!
Verification of the epub-reader front end and of the spec of its
content-service core. The TypeScript components under src are embedded
shallowly; the Rust back end (spine lookup, library loading, the injected
script) is not among the sources, so those parts are modelled from the
spec. Definitions come first, then the theorems about them.
-/

namespace EpubReader

/-- A message posted between the reader and the rendered content, modelled as
an ordered list of string key-value pairs so that the exact field set and
field order of the JavaScript object literal are captured. -/
abbrev JSMsg := List (String × String)

/-- A JSON value as stored by the reader: the persisted objects only ever
contain strings and integers. -/
inductive JsValue where
  | str (s : String)
  | num (n : Int)
deriving DecidableEq, Repr

/-- A JSON object, an ordered list of fields, capturing exactly which fields
a persisted object carries. -/
abbrev JsObject := List (String × JsValue)

/-- The pagination and spine state of the revised BookReader component
(part_001): book key, current content URI, current page, total pages,
spine, and current spine index. Numeric fields are JavaScript numbers
holding integers, embedded as Int. -/
structure ReaderState where
  bookKey : String
  currentContent : String
  currentPage : Int
  totalPages : Int
  spine : List String
  currentSpineIndex : Int
deriving DecidableEq, Repr

/-- JavaScript array indexing with an Int index: in-bounds returns the
element, out-of-bounds yields undefined, which a template literal renders
as the string undefined. -/
def jsIndex (l : List String) (i : Int) : String :=
  if h : 0 ≤ i ∧ i.toNat < l.length then l.get ⟨i.toNat, h.2⟩ else "undefined"

/-- handleNextPage from part_001 lines 121-138: on the last page of the
chapter it advances to the next spine entry when one exists and otherwise
does nothing; within a chapter it posts a pagination-next message. Returns
the updated state and the list of messages posted to the iframe. -/
def handleNextPage (s : ReaderState) : ReaderState × List JSMsg :=
  if s.currentPage ≥ s.totalPages - 1 then
    if s.currentSpineIndex < (s.spine.length : Int) - 1 then
      let nextSpineIndex := s.currentSpineIndex + 1
      let nextContentPath := jsIndex s.spine nextSpineIndex
      ({ s with currentContent := "epub://" ++ s.bookKey ++ "/" ++ nextContentPath,
                currentSpineIndex := nextSpineIndex,
                currentPage := 0 }, [])
    else (s, [])
  else (s, [[("type", "pagination-next")]])

/-- handlePreviousPage from part_001 lines 140-158: on page 0 it moves to
the previous spine entry when one exists and otherwise does nothing; within
a chapter it posts a pagination-previous message. -/
def handlePreviousPage (s : ReaderState) : ReaderState × List JSMsg :=
  if s.currentPage = 0 then
    if s.currentSpineIndex > 0 then
      let prevSpineIndex := s.currentSpineIndex - 1
      let prevContentPath := jsIndex s.spine prevSpineIndex
      ({ s with currentContent := "epub://" ++ s.bookKey ++ "/" ++ prevContentPath,
                currentSpineIndex := prevSpineIndex,
                currentPage := 0 }, [])
    else (s, [])
  else (s, [[("type", "pagination-previous")]])

/-- JavaScript String.replace with a plain string pattern replaces the first
occurrence only; this is that search on character lists: scan left to right
for the first position where the pattern is a prefix and splice in the
replacement there, leaving the string unchanged when there is no match. -/
def charsReplaceFirst (pat repl : List Char) : List Char → List Char
  | [] => if pat.isPrefixOf ([] : List Char) then repl else []
  | c :: rest =>
    if pat.isPrefixOf (c :: rest) then repl ++ (c :: rest).drop pat.length
    else c :: charsReplaceFirst pat repl rest

/-- JavaScript s.replace(pat, repl) for a plain string pattern, lifted to
strings. -/
def jsReplaceFirst (s pat repl : String) : String :=
  String.mk (charsReplaceFirst pat.data repl.data s.data)

/-- saveReadingPosition from part_001 lines 41-52: when bookKey and
currentContent are both non-empty (truthy), it stores under the key
reading-bookKey a JSON object with exactly the fields bookKey, contentPath
(currentContent with the first occurrence of the epub prefix removed),
page (the current page) and timestamp, in that order. Returns the
localStorage write it performs, if any; now stands for Date.now(). -/
def saveReadingPosition (s : ReaderState) (now : Int) : Option (String × JsObject) :=
  if s.bookKey = "" ∨ s.currentContent = "" then none
  else some ("reading-" ++ s.bookKey,
    [("bookKey", JsValue.str s.bookKey),
     ("contentPath", JsValue.str
        (jsReplaceFirst s.currentContent ("epub://" ++ s.bookKey ++ "/") "")),
     ("page", JsValue.num s.currentPage),
     ("timestamp", JsValue.num now)])

/-- loadReadingPosition from part_001 lines 54-65: returns null when the
bookKey route parameter is undefined or empty, when no value is stored
under reading-bookKey, or when the stored string is empty (falsy); otherwise
it returns the result of JSON.parse, whose failure the try-catch turns into
null. JSON.parse and localStorage.getItem are platform primitives, passed
in as parse and store. -/
def loadReadingPosition {α : Type} (parse : String → Option α)
    (store : String → Option String) : Option String → Option α
  | none => none
  | some k =>
    if k = "" then none
    else
      match store ("reading-" ++ k) with
      | none => none
      | some saved => if saved = "" then none else parse saved

/-- A concrete localStorage used to witness loadReadingPosition: one entry
under the key for book b. -/
def sampleStore : String → Option String :=
  fun k => if k = "reading-b" then some "s" else none

/-- A concrete JSON parser stub used to witness loadReadingPosition: it
accepts exactly the stored sample string. -/
def sampleParse : String → Option Int :=
  fun s => if s = "s" then some 7 else none

/-- The table-of-contents node delivered by the get_book_toc command,
matching the TocItem interface of src/types/book.ts: label, content path,
play order and nested children. -/
inductive TocItem where
  | mk (label : String) (content : String) (play_order : Nat)
       (children : List TocItem)

/-- The content path of a table-of-contents node. -/
def TocItem.content : TocItem → String
  | ⟨_, c, _, _⟩ => c

/-- The play order of a table-of-contents node. -/
def TocItem.play_order : TocItem → Nat
  | ⟨_, _, p, _⟩ => p

/-- The children of a table-of-contents node. -/
def TocItem.children : TocItem → List TocItem
  | ⟨_, _, _, ch⟩ => ch

/-- The default initial content chosen by the original BookReader
(src/components/BookReader.tsx lines 42-46): the URI of the first table of
contents entry, when the table of contents is non-empty. -/
def originalDefaultContent (bookKey : String) : List TocItem → Option String
  | [] => none
  | t :: _ => some ("epub://" ++ bookKey ++ "/" ++ t.content)

/-- The default initial content chosen by the revised BookReader
(part_001 lines 100-105) when no reading position is saved: the URI of the
first spine entry, when the spine is non-empty. -/
def revisedDefaultContent (bookKey : String) : List String → Option String
  | [] => none
  | p :: _ => some ("epub://" ++ bookKey ++ "/" ++ p)

/-- handleTocItemClick from part_001 lines 160-177: sets the content URI to
the clicked entry, resets the page to 0, and updates the spine index when
the backend lookup returns a non-null index. -/
def handleTocItemClick (s : ReaderState) (content : String) (spineIdx : Option Int) :
    ReaderState :=
  match spineIdx with
  | none => { s with currentContent := "epub://" ++ s.bookKey ++ "/" ++ content,
                     currentPage := 0 }
  | some i => { s with currentContent := "epub://" ++ s.bookKey ++ "/" ++ content,
                       currentPage := 0,
                       currentSpineIndex := i }

/-- handlePaginationUpdate from part_001 lines 115-119: records the page and
total reported by the iframe and persists the reading position. React state
setters do not change the closed-over render snapshot, so the call to
saveReadingPosition inside the handler still reads the snapshot state s,
not the freshly set page; the model passes s to it accordingly. -/
def handlePaginationUpdate (s : ReaderState) (page total : Int) (now : Int) :
    ReaderState × Option (String × JsObject) :=
  ({ s with currentPage := page, totalPages := total }, saveReadingPosition s now)

/-- An event the BookReader component reacts to. The paginationUpdate
payload is Modelled from the spec: the injected pagination script reports
the current page and total page count of a viewport clamped to content
bounds, so both are non-negative integers, embedded as Nat. -/
inductive ReaderEvent where
  | nextPage
  | prevPage
  | tocClick (content : String) (spineIdx : Option Int)
  | paginationUpdate (page total : Nat) (now : Int)

/-- One step of the BookReader state machine: the state after the event and
the localStorage write it performs, if any. Only a pagination update
persists a reading position. -/
def step (s : ReaderState) : ReaderEvent → ReaderState × Option (String × JsObject)
  | ReaderEvent.nextPage => ((handleNextPage s).1, none)
  | ReaderEvent.prevPage => ((handlePreviousPage s).1, none)
  | ReaderEvent.tocClick content idx => (handleTocItemClick s content idx, none)
  | ReaderEvent.paginationUpdate page total now =>
      handlePaginationUpdate s (page : Int) (total : Int) now

/-- Run of the BookReader state machine over a list of events, collecting
every localStorage write performed along the way. -/
def run (s : ReaderState) : List ReaderEvent → ReaderState × List (String × JsObject)
  | [] => (s, [])
  | e :: es =>
      ((run (step s e).1 es).1, (step s e).2.toList ++ (run (step s e).1 es).2)

/-- Check that a persisted localStorage entry has exactly the documented
ReadingPosition shape: the four fields bookKey, contentPath, page and
timestamp with string, string, integer and integer values, no other
fields, a non-negative page, and the storage key reading-bookKey. -/
def positionOk (w : String × JsObject) : Bool :=
  match w.2 with
  | [("bookKey", JsValue.str k), ("contentPath", JsValue.str _),
     ("page", JsValue.num p), ("timestamp", JsValue.num _)] =>
      (w.1 == "reading-" ++ k) && decide (0 ≤ p)
  | _ => false

/-- Modelled from the spec: path normalization of the Navigation Model
strips a trailing fragment, everything from the first hash character on,
before comparison. -/
def normContentPath (p : String) : String :=
  String.mk (p.data.takeWhile (fun c => !(c = '#')))

/-- Index of the first list entry satisfying the predicate, if any. -/
def findFirstIdx (f : String → Bool) : List String → Option Nat
  | [] => none
  | x :: xs => if f x then some 0 else (findFirstIdx f xs).map (fun n => n + 1)

/-- Ordering of table-of-contents nodes by play order. -/
def tocLE (a b : TocItem) : Prop := a.play_order ≤ b.play_order

instance : DecidableRel tocLE :=
  fun a b => inferInstanceAs (Decidable (a.play_order ≤ b.play_order))

instance : IsTotal TocItem tocLE := ⟨fun a b => Nat.le_total a.play_order b.play_order⟩

instance : IsTrans TocItem tocLE := ⟨fun _ _ _ => Nat.le_trans⟩

/-- Modelled from the spec: the Archive Loader builds the navigation tree
with children at each level ordered ascending by playOrder and ties broken
by document declaration order, which is exactly a stable insertion sort by
playOrder applied at every level of the declaration-ordered raw nodes. -/
def sortTocItem : TocItem → TocItem
  | TocItem.mk label content po ch =>
      TocItem.mk label content po
        (List.insertionSort tocLE (ch.attach.map (fun x => sortTocItem x.1)))
termination_by t => sizeOf t
decreasing_by
  simp_wf
  have := List.sizeOf_lt_of_mem x.2
  omega

/-- Modelled from the spec: the whole navigation forest with every level,
including the root level, ordered ascending by playOrder. -/
def sortTocForest (l : List TocItem) : List TocItem :=
  List.insertionSort tocLE (l.map sortTocItem)

/-- The loaded document: title, ordered spine of resource paths, and the
navigation forest. -/
structure EpubDocument where
  title : String
  spine : List String
  toc : List TocItem

/-- Modelled from the spec: the Archive Loader assembles a document from the
parsed title, spine, and declaration-ordered raw navigation nodes, ordering
the navigation forest at every level. -/
def mkDocument (title : String) (spine : List String) (rawToc : List TocItem) :
    EpubDocument :=
  ⟨title, spine, sortTocForest rawToc⟩

/-- The navigation forest of a loaded document. -/
def tocOf (doc : EpubDocument) : List TocItem := doc.toc

/-- Modelled from the spec: spineIndexOf returns the index of the first
spine entry whose normalized path equals the normalized content path, with
trailing fragments stripped on both sides, and None when no entry
matches. -/
def spineIndexOf (doc : EpubDocument) (contentPath : String) : Option Nat :=
  findFirstIdx (fun e => normContentPath e == normContentPath contentPath) doc.spine

/-- A concrete loaded document used by witnesses. -/
def sampleDoc : EpubDocument := ⟨"t", [], []⟩

/-- Levels-sorted invariant of a navigation node: its children are
non-decreasing in play order and every child satisfies the same invariant
recursively. -/
inductive LevelsSorted : TocItem → Prop where
  | mk : ∀ (label content : String) (po : Nat) (ch : List TocItem),
      List.Sorted tocLE ch → (∀ c ∈ ch, LevelsSorted c) →
      LevelsSorted (TocItem.mk label content po ch)

/-- ASCII letter test for the first character of a URI scheme. -/
def isAsciiLetter (c : Char) : Bool :=
  decide ('a' ≤ c ∧ c ≤ 'z') || decide ('A' ≤ c ∧ c ≤ 'Z')

/-- Characters allowed after the first in a URI scheme. -/
def isSchemeChar (c : Char) : Bool :=
  isAsciiLetter c || decide ('0' ≤ c ∧ c ≤ '9') || decide (c = '+') ||
    decide (c = '-') || decide (c = '.')

/-- Scan of the characters after the first of a candidate scheme: a colon
closes the scheme, any non-scheme character before a colon means the
reference has no scheme. -/
def schemeRest : List Char → Bool
  | [] => false
  | c :: rest => if c = ':' then true else (isSchemeChar c && schemeRest rest)

/-- Whether a character list starts with a URI scheme: a letter followed by
scheme characters up to a colon. -/
def hasSchemeChars : List Char → Bool
  | [] => false
  | c :: rest => isAsciiLetter c && schemeRest rest

/-- Modelled from the spec: a hyperlink target counts as having a scheme
when it starts with a letter followed by scheme characters and a colon;
otherwise it is a relative reference. -/
def hasScheme (s : String) : Bool := hasSchemeChars s.data

/-- Modelled from the spec: the custom scheme of the application is epub. -/
def isCustomScheme (s : String) : Bool := "epub:".data.isPrefixOf s.data

/-- Whether a character list is a fragment-only reference, starting with a
hash character. -/
def isFragmentOnlyChars : List Char → Bool
  | [] => false
  | c :: _ => decide (c = '#')

/-- Modelled from the spec: fragment-only references start with a hash. -/
def isFragmentOnly (s : String) : Bool := isFragmentOnlyChars s.data

/-- Outcome of the injected script handling a click on an anchor: whether
default navigation is prevented, the in-place navigation target if any, and
the messages posted to the parent context. -/
structure ClickOutcome where
  preventDefault : Bool
  inPlaceNav : Option String
  messages : List JSMsg
deriving DecidableEq, Repr

/-- Modelled from the spec: the injected script classifies a clicked anchor
by scheme. A fragment-only target keeps the default scroll behavior; a
relative reference or a custom-scheme URI prevents default and navigates in
place; any other scheme prevents default and posts exactly one
epub-external-link message carrying the original href. -/
def handleLinkClick (href : String) : ClickOutcome :=
  if isFragmentOnly href then ⟨false, none, []⟩
  else if isCustomScheme href || !(hasScheme href) then ⟨true, some href, []⟩
  else ⟨true, none, [[("type", "epub-external-link"), ("url", href)]]⟩

/-- Modelled from the spec: the Library Index scan attempts the Archive
Loader on every directory entry independently; a file whose load fails is
skipped and the rest of the scan continues. Each directory entry is a file
name paired with its Archive Loader verdict. -/
def loadAll (files : List (String × Option EpubDocument)) :
    List (String × EpubDocument) :=
  files.filterMap (fun f => f.2.map (fun d => (f.1, d)))

end EpubReader

namespace EpubReader

theorem string_mk_data (s : String) : String.mk s.data = s := by
  cases s
  rfl

theorem string_append_left_cancel (p a b : String) (h : p ++ a = p ++ b) : a = b := by
  have hd := congrArg String.data h
  rw [String.data_append, String.data_append] at hd
  have hc := List.append_cancel_left hd
  cases a
  cases b
  exact congrArg String.mk hc

theorem isPrefixOf_append_self (pat rest : List Char) :
    pat.isPrefixOf (pat ++ rest) = true := by
  induction pat with
  | nil => simp [List.isPrefixOf]
  | cons c cs ih =>
    show List.isPrefixOf (c :: cs) (c :: (cs ++ rest)) = true
    simp [List.isPrefixOf, ih]

theorem charsReplaceFirst_append (pat repl rest : List Char) :
    charsReplaceFirst pat repl (pat ++ rest) = repl ++ rest := by
  have hpre : pat.isPrefixOf (pat ++ rest) = true := isPrefixOf_append_self pat rest
  cases hm : pat ++ rest with
  | nil =>
    rcases List.append_eq_nil.mp hm with ⟨h1, h2⟩
    subst h1
    subst h2
    simp [charsReplaceFirst, List.isPrefixOf]
  | cons c l =>
    rw [hm] at hpre
    rw [charsReplaceFirst, if_pos hpre, ← hm, List.drop_left]

theorem jsReplaceFirst_of_append (pat rest : String) :
    jsReplaceFirst (pat ++ rest) pat "" = rest := by
  unfold jsReplaceFirst
  rw [String.data_append]
  have h2 : ("" : String).data = [] := rfl
  rw [h2, charsReplaceFirst_append]
  rw [List.nil_append]

theorem epub_uri_ne_empty (k r : String) : "epub://" ++ k ++ "/" ++ r ≠ "" := by
  intro h
  have hd := congrArg String.data h
  rw [String.data_append, String.data_append, String.data_append] at hd
  have he : ("epub://" : String).data = ['e', 'p', 'u', 'b', ':', '/', '/'] := rfl
  have h0 : ("" : String).data = [] := rfl
  rw [he, h0] at hd
  simp at hd

/-- C2: pagination is clamped to content bounds. On the last page of the
last chapter handleNextPage changes nothing and posts nothing; on the first
page of the first chapter handlePreviousPage changes nothing and posts
nothing. -/
theorem pagination_clamped (s : ReaderState) :
    (s.currentPage ≥ s.totalPages - 1 → s.currentSpineIndex ≥ (s.spine.length : Int) - 1 →
      handleNextPage s = (s, []))
    ∧ (s.currentPage = 0 → s.currentSpineIndex = 0 →
      handlePreviousPage s = (s, [])) := by
  constructor
  · intro h1 h2
    unfold handleNextPage
    rw [if_pos h1, if_neg (by omega)]
  · intro h1 h2
    unfold handlePreviousPage
    rw [if_pos h1, if_neg (by omega)]

/-- Witness for pagination_clamped at a concrete one-chapter state. -/
theorem pagination_clamped_witness :
    handleNextPage ⟨"b", "epub://b/x", 0, 1, ["x"], 0⟩ = (⟨"b", "epub://b/x", 0, 1, ["x"], 0⟩, [])
    ∧ handlePreviousPage ⟨"b", "epub://b/x", 0, 1, ["x"], 0⟩ =
        (⟨"b", "epub://b/x", 0, 1, ["x"], 0⟩, []) :=
  ⟨(pagination_clamped ⟨"b", "epub://b/x", 0, 1, ["x"], 0⟩).1 (by decide) (by decide),
   (pagination_clamped ⟨"b", "epub://b/x", 0, 1, ["x"], 0⟩).2 rfl rfl⟩

/-- C4: in-chapter page movement sends exactly one message, the object
with the single field type holding pagination-next, respectively
pagination-previous, and nothing else. -/
theorem pagination_message_exact (s : ReaderState) :
    (s.currentPage < s.totalPages - 1 →
      handleNextPage s = (s, [[("type", "pagination-next")]]))
    ∧ (s.currentPage > 0 →
      handlePreviousPage s = (s, [[("type", "pagination-previous")]])) := by
  constructor
  · intro h
    unfold handleNextPage
    rw [if_neg (by omega)]
  · intro h
    unfold handlePreviousPage
    rw [if_neg (by omega)]

/-- Witness for pagination_message_exact at a concrete mid-chapter state. -/
theorem pagination_message_exact_witness :
    handleNextPage ⟨"b", "epub://b/x", 1, 5, ["x"], 0⟩ =
      (⟨"b", "epub://b/x", 1, 5, ["x"], 0⟩, [[("type", "pagination-next")]])
    ∧ handlePreviousPage ⟨"b", "epub://b/x", 1, 5, ["x"], 0⟩ =
      (⟨"b", "epub://b/x", 1, 5, ["x"], 0⟩, [[("type", "pagination-previous")]]) :=
  ⟨(pagination_message_exact ⟨"b", "epub://b/x", 1, 5, ["x"], 0⟩).1 (by decide),
   (pagination_message_exact ⟨"b", "epub://b/x", 1, 5, ["x"], 0⟩).2 (by decide)⟩

/-- C8: saving then resuming round-trips the content URI. When
currentContent begins with the prefix epub, bookKey, slash, the stored
contentPath is exactly the remainder after removing that first prefix
occurrence, and rebuilding the URI from it gives back currentContent. -/
theorem save_resume_roundtrip (s : ReaderState) (now : Int) (rest : String)
    (hk : s.bookKey ≠ "")
    (hc : s.currentContent = "epub://" ++ s.bookKey ++ "/" ++ rest) :
    saveReadingPosition s now = some ("reading-" ++ s.bookKey,
      [("bookKey", JsValue.str s.bookKey),
       ("contentPath", JsValue.str rest),
       ("page", JsValue.num s.currentPage),
       ("timestamp", JsValue.num now)])
    ∧ "epub://" ++ s.bookKey ++ "/" ++ rest = s.currentContent := by
  have hne : s.currentContent ≠ "" := by
    rw [hc]
    exact epub_uri_ne_empty s.bookKey rest
  constructor
  · unfold saveReadingPosition
    rw [if_neg (by push_neg; exact ⟨hk, hne⟩)]
    have harg : s.currentContent = ("epub://" ++ s.bookKey ++ "/") ++ rest := hc
    rw [harg, jsReplaceFirst_of_append]
  · exact hc.symm

/-- Witness for save_resume_roundtrip at a concrete state. -/
theorem save_resume_roundtrip_witness :
    saveReadingPosition ⟨"b", "epub://b/ch1.html", 2, 5, ["ch1.html"], 0⟩ 9 =
      some ("reading-b",
        [("bookKey", JsValue.str "b"),
         ("contentPath", JsValue.str "ch1.html"),
         ("page", JsValue.num 2),
         ("timestamp", JsValue.num 9)])
    ∧ "epub://" ++ "b" ++ "/" ++ "ch1.html" = "epub://b/ch1.html" :=
  ⟨(save_resume_roundtrip ⟨"b", "epub://b/ch1.html", 2, 5, ["ch1.html"], 0⟩ 9 "ch1.html"
      (by decide) (by decide)).1,
   (save_resume_roundtrip ⟨"b", "epub://b/ch1.html", 2, 5, ["ch1.html"], 0⟩ 9 "ch1.html"
      (by decide) (by decide)).2⟩

/-- C9: loadReadingPosition is total and never raises. It returns null when
the bookKey is undefined or empty, null when nothing is stored under the
reading key, null when the stored string is empty, and for a non-empty
stored string it returns exactly the parse result, whose failure the
try-catch converts to null. -/
theorem loadReadingPosition_total {α : Type} (parse : String → Option α)
    (store : String → Option String) :
    loadReadingPosition parse store none = none
    ∧ loadReadingPosition parse store (some "") = none
    ∧ (∀ k, k ≠ "" → store ("reading-" ++ k) = none →
        loadReadingPosition parse store (some k) = none)
    ∧ (∀ k saved, k ≠ "" → store ("reading-" ++ k) = some saved → saved ≠ "" →
        loadReadingPosition parse store (some k) = parse saved) := by
  refine ⟨rfl, rfl, ?_, ?_⟩
  · intro k hk hs
    simp only [loadReadingPosition]
    rw [if_neg hk, hs]
  · intro k saved hk hs hsv
    simp only [loadReadingPosition]
    rw [if_neg hk, hs]
    exact if_neg hsv

/-- Witness for loadReadingPosition_total on the sample store and parser. -/
theorem loadReadingPosition_total_witness :
    loadReadingPosition sampleParse sampleStore (some "b") = some 7 := by
  have h := (loadReadingPosition_total sampleParse sampleStore).2.2.2 "b" "s"
    (by decide) (by unfold sampleStore; rfl) (by decide)
  rw [h]
  unfold sampleParse
  rfl

/-- C10: with no saved reading position the original BookReader starts from
the first table of contents entry and the revised one from the first spine
entry, so the two defaults coincide exactly when the first ToC content path
equals the first spine path, and can differ otherwise. -/
theorem default_content_agreement (bookKey : String) (t : TocItem) (toc : List TocItem)
    (p : String) (spine : List String) :
    originalDefaultContent bookKey (t :: toc) = revisedDefaultContent bookKey (p :: spine)
    ↔ t.content = p := by
  simp only [originalDefaultContent, revisedDefaultContent]
  constructor
  · intro h
    have h2 := Option.some.inj h
    exact string_append_left_cancel ("epub://" ++ bookKey ++ "/") t.content p h2
  · intro h
    rw [h]

theorem findFirstIdx_none_iff (f : String → Bool) (l : List String) :
    findFirstIdx f l = none ↔ ∀ x ∈ l, f x = false := by
  induction l with
  | nil => simp [findFirstIdx]
  | cons x xs ih =>
    rw [findFirstIdx]
    cases hfx : f x with
    | true => simp [hfx]
    | false => simp [hfx, Option.map_eq_none, ih]

theorem findFirstIdx_get_nodup (norm : String → String) :
    ∀ (l : List String) (i : Nat) (h : i < l.length), (l.map norm).Nodup →
      findFirstIdx (fun e => norm e == norm (l.get ⟨i, h⟩)) l = some i := by
  intro l
  induction l with
  | nil => intro i h; simp at h
  | cons x xs ih =>
    intro i h hnd
    rw [List.map_cons, List.nodup_cons] at hnd
    rw [findFirstIdx]
    cases i with
    | zero =>
      rw [if_pos (by simp [List.get])]
    | succ j =>
      have hj : j < xs.length := by simpa using h
      have hget : (x :: xs).get ⟨j + 1, h⟩ = xs.get ⟨j, hj⟩ := rfl
      have hx : (norm x == norm ((x :: xs).get ⟨j + 1, h⟩)) = false := by
        rw [hget, beq_eq_false_iff_ne]
        intro he
        exact hnd.1 (he ▸ List.mem_map_of_mem norm (xs.get_mem j hj))
      have hcond : ¬((norm x == norm ((x :: xs).get ⟨j + 1, h⟩)) = true) := by
        rw [hx]
        exact Bool.false_ne_true
      rw [if_neg hcond, hget, ih j hj hnd.2]
      rfl

/-- C1 fails as stated: with a duplicated spine path, the literal path of
spine at index 1 is looked up to index 0, the first match, not to 1. -/
theorem spineIndexOf_counterexample :
    spineIndexOf ⟨"t", ["a", "a"], []⟩ (["a", "a"].get ⟨1, by decide⟩) = some 0
    ∧ spineIndexOf ⟨"t", ["a", "a"], []⟩ (["a", "a"].get ⟨1, by decide⟩) ≠ some 1 := by
  constructor
  · rfl
  · decide

/-- C1 amended: spineIndexOf on the literal path of spine at index i
returns i whenever the normalized spine paths are pairwise distinct, and it
returns None exactly when no spine entry matches the normalized lookup
path. -/
theorem spineIndexOf_spec (doc : EpubDocument) (i : Nat) (h : i < doc.spine.length)
    (hnd : (doc.spine.map normContentPath).Nodup) (p : String) :
    spineIndexOf doc (doc.spine.get ⟨i, h⟩) = some i
    ∧ (spineIndexOf doc p = none ↔
        ∀ e ∈ doc.spine, normContentPath e ≠ normContentPath p) := by
  constructor
  · exact findFirstIdx_get_nodup normContentPath doc.spine i h hnd
  · unfold spineIndexOf
    rw [findFirstIdx_none_iff]
    simp [beq_eq_false_iff_ne]

/-- Witness for spineIndexOf_spec on a two-entry spine. -/
theorem spineIndexOf_spec_witness :
    spineIndexOf ⟨"t", ["a", "b"], []⟩ (["a", "b"].get ⟨0, by decide⟩) = some 0 :=
  (spineIndexOf_spec ⟨"t", ["a", "b"], []⟩ 0 (by decide) (by decide) "c").1

theorem levelsSorted_sortTocItem : ∀ t : TocItem, LevelsSorted (sortTocItem t)
  | TocItem.mk label content po ch => by
    rw [sortTocItem]
    refine LevelsSorted.mk _ _ _ _ (List.sorted_insertionSort tocLE _) ?_
    intro c hc
    have hmem : c ∈ ch.attach.map (fun x => sortTocItem x.1) :=
      (List.perm_insertionSort tocLE _).mem_iff.mp hc
    rcases List.mem_map.mp hmem with ⟨x, hx, rfl⟩
    exact levelsSorted_sortTocItem x.1
termination_by t => sizeOf t
decreasing_by
  simp_wf
  have := List.sizeOf_lt_of_mem x.2
  omega

/-- C5: for every loaded document, the navigation forest is non-decreasing
in play order at the root level, and every node of it satisfies the same
ordering invariant at every deeper level. -/
theorem toc_levels_sorted (title : String) (spine : List String)
    (rawToc : List TocItem) :
    List.Sorted tocLE (tocOf (mkDocument title spine rawToc))
    ∧ ∀ t ∈ tocOf (mkDocument title spine rawToc), LevelsSorted t := by
  constructor
  · exact List.sorted_insertionSort tocLE _
  · intro t ht
    have hmem : t ∈ rawToc.map sortTocItem :=
      (List.perm_insertionSort tocLE _).mem_iff.mp ht
    rcases List.mem_map.mp hmem with ⟨y, hy, rfl⟩
    exact levelsSorted_sortTocItem y

/-- Witness for toc_levels_sorted on a concrete two-node raw forest given in
reverse play order. -/
theorem toc_levels_sorted_witness :
    List.Sorted tocLE (tocOf (mkDocument "t" []
      [TocItem.mk "b" "b.html" 2 [], TocItem.mk "a" "a.html" 1 []])) :=
  (toc_levels_sorted "t" [] [TocItem.mk "b" "b.html" 2 [], TocItem.mk "a" "a.html" 1 []]).1

/-- C6: link classification is scheme-driven. A clicked anchor whose href
carries any scheme other than the custom one is intercepted: default
navigation is prevented, no in-place navigation happens, and exactly one
epub-external-link message with the original href is posted, regardless of
host. A relative href is navigated in place with no message. -/
theorem link_classification (href : String) :
    (hasScheme href = true → isCustomScheme href = false →
      handleLinkClick href =
        ⟨true, none, [[("type", "epub-external-link"), ("url", href)]]⟩)
    ∧ (hasScheme href = false → isFragmentOnly href = false →
      handleLinkClick href = ⟨true, some href, []⟩) := by
  constructor
  · intro hs hc
    have hfrag : isFragmentOnly href = false := by
      unfold isFragmentOnly
      unfold hasScheme at hs
      cases hd : href.data with
      | nil =>
        rw [hd] at hs
        exact absurd hs (by simp [hasSchemeChars])
      | cons c rest =>
        rw [hd] at hs
        rw [hasSchemeChars, Bool.and_eq_true] at hs
        have hla : isAsciiLetter c = true := hs.1
        rw [isFragmentOnlyChars]
        rw [decide_eq_false_iff_not]
        intro he
        subst he
        exact absurd hla (by decide)
    unfold handleLinkClick
    rw [hfrag, hc, hs]
    simp
  · intro hs hfrag
    unfold handleLinkClick
    rw [hfrag, hs]
    simp

/-- Witness for link_classification at the two hrefs of the spec scenario. -/
theorem link_classification_witness :
    handleLinkClick "mailto:test@example.com" =
      ⟨true, none, [[("type", "epub-external-link"), ("url", "mailto:test@example.com")]]⟩
    ∧ handleLinkClick "chapter2.html" = ⟨true, some "chapter2.html", []⟩ :=
  ⟨(link_classification "mailto:test@example.com").1 (by decide) (by decide),
   (link_classification "chapter2.html").2 (by decide) (by decide)⟩

theorem keys_nodup_unique {β : Type} (k : String) (a b : β) :
    ∀ l : List (String × β), (l.map Prod.fst).Nodup →
      (k, a) ∈ l → (k, b) ∈ l → a = b := by
  intro l
  induction l with
  | nil =>
    intro _ ha _
    exact absurd ha (List.not_mem_nil _)
  | cons x xs ih =>
    intro h ha hb
    rw [List.map_cons, List.nodup_cons] at h
    obtain ⟨xk, xv⟩ := x
    rcases List.mem_cons.mp ha with ha1 | ha2
    · rcases List.mem_cons.mp hb with hb1 | hb2
      · rw [← ha1] at hb1
        injection hb1 with _ h2
        exact h2.symm
      · injection ha1 with h1 h2
        subst h1
        exact absurd (List.mem_map_of_mem Prod.fst hb2) h.1
    · rcases List.mem_cons.mp hb with hb1 | hb2
      · injection hb1 with h1 h2
        subst h1
        exact absurd (List.mem_map_of_mem Prod.fst ha2) h.1
      · exact ih h.2 ha2 hb2

theorem loadAll_mem_iff (files : List (String × Option EpubDocument))
    (k : String) (d : EpubDocument) :
    (k, d) ∈ loadAll files ↔ (k, some d) ∈ files := by
  unfold loadAll
  rw [List.mem_filterMap]
  constructor
  · rintro ⟨⟨k2, od⟩, hmem, hf⟩
    cases od with
    | none => simp at hf
    | some v =>
      simp only [Option.map] at hf
      injection hf with hf2
      injection hf2 with he1 he2
      rw [← he1, ← he2]
      exact hmem
  · intro hmem
    exact ⟨(k, some d), hmem, rfl⟩

theorem loadAll_length (files : List (String × Option EpubDocument)) :
    (loadAll files).length = (files.filter (fun f => f.2.isSome)).length := by
  induction files with
  | nil => rfl
  | cons f fs ih =>
    obtain ⟨k, od⟩ := f
    cases od with
    | none => simpa [loadAll, List.filterMap_cons, List.filter_cons] using ih
    | some d => simpa [loadAll, List.filterMap_cons, List.filter_cons] using ih

/-- C7: scanning a directory with parseable and unparseable files yields a
library with exactly one entry per parseable file; every parseable file
survives to the library, so no failure aborts the scan, and with distinct
file names an unparseable file appears under no bookKey. -/
theorem loadAll_spec (files : List (String × Option EpubDocument)) :
    (loadAll files).length = (files.filter (fun f => f.2.isSome)).length
    ∧ (∀ k d, (k, some d) ∈ files → (k, d) ∈ loadAll files)
    ∧ ((files.map Prod.fst).Nodup →
        ∀ k, (k, none) ∈ files → ∀ d, (k, d) ∉ loadAll files) := by
  refine ⟨loadAll_length files, ?_, ?_⟩
  · intro k d hm
    exact (loadAll_mem_iff files k d).mpr hm
  · intro hnd k hknone d hkd
    have h1 : (k, some d) ∈ files := (loadAll_mem_iff files k d).mp hkd
    have h2 := keys_nodup_unique k (none : Option EpubDocument) (some d) files hnd hknone h1
    exact Option.noConfusion h2

/-- Witness for loadAll_spec on a directory of one parseable and one
unparseable file. -/
theorem loadAll_spec_witness :
    (loadAll [("good.epub", some sampleDoc), ("bad.epub", none)]).length = 1
    ∧ ("good.epub", sampleDoc) ∈ loadAll [("good.epub", some sampleDoc), ("bad.epub", none)]
    ∧ ("bad.epub", sampleDoc) ∉ loadAll [("good.epub", some sampleDoc), ("bad.epub", none)] :=
  ⟨(loadAll_spec [("good.epub", some sampleDoc), ("bad.epub", none)]).1.trans rfl,
   (loadAll_spec [("good.epub", some sampleDoc), ("bad.epub", none)]).2.1 "good.epub"
     sampleDoc (List.mem_cons_self _ _),
   (loadAll_spec [("good.epub", some sampleDoc), ("bad.epub", none)]).2.2 (by decide)
     "bad.epub" (List.mem_cons_of_mem _ (List.mem_cons_self _ _)) sampleDoc⟩

theorem handleNextPage_currentPage (s : ReaderState) :
    (handleNextPage s).1.currentPage = 0
    ∨ (handleNextPage s).1.currentPage = s.currentPage := by
  unfold handleNextPage
  split
  · split
    · left
      rfl
    · right
      rfl
  · right
    rfl

theorem handlePreviousPage_currentPage (s : ReaderState) :
    (handlePreviousPage s).1.currentPage = 0
    ∨ (handlePreviousPage s).1.currentPage = s.currentPage := by
  unfold handlePreviousPage
  split
  · split
    · left
      rfl
    · right
      rfl
  · right
    rfl

theorem handleTocItemClick_currentPage (s : ReaderState) (c : String) (idx : Option Int) :
    (handleTocItemClick s c idx).currentPage = 0 := by
  cases idx <;> rfl

theorem step_preserves_nonneg (s : ReaderState) (e : ReaderEvent)
    (h : 0 ≤ s.currentPage) : 0 ≤ (step s e).1.currentPage := by
  cases e with
  | nextPage =>
    simp only [step]
    rcases handleNextPage_currentPage s with h0 | h0 <;> omega
  | prevPage =>
    simp only [step]
    rcases handlePreviousPage_currentPage s with h0 | h0 <;> omega
  | tocClick c i =>
    simp only [step]
    rw [handleTocItemClick_currentPage]
  | paginationUpdate p t n =>
    simp only [step, handlePaginationUpdate]
    exact Int.ofNat_nonneg p

theorem saveReadingPosition_ok (s : ReaderState) (now : Int) (h : 0 ≤ s.currentPage)
    (w : String × JsObject) (hw : w ∈ (saveReadingPosition s now).toList) :
    positionOk w = true := by
  unfold saveReadingPosition at hw
  by_cases hcond : s.bookKey = "" ∨ s.currentContent = ""
  · rw [if_pos hcond] at hw
    simp at hw
  · rw [if_neg hcond] at hw
    simp only [Option.toList, List.mem_singleton] at hw
    subst hw
    show ((("reading-" ++ s.bookKey) == "reading-" ++ s.bookKey)
        && decide (0 ≤ s.currentPage)) = true
    rw [Bool.and_eq_true]
    exact ⟨beq_self_eq_true _, decide_eq_true h⟩

/-- C3: every reading position the reader persists over any run of events,
starting from any state with a non-negative current page, is a JSON object
with exactly the fields bookKey, contentPath, page and timestamp of the
documented types, a non-negative page, stored under the key keyed by
bookKey, and nothing else. -/
theorem persisted_positions_wellformed (s : ReaderState) (h : 0 ≤ s.currentPage)
    (evs : List ReaderEvent) : ∀ w ∈ (run s evs).2, positionOk w = true := by
  induction evs generalizing s with
  | nil =>
    intro w hw
    simp [run] at hw
  | cons e es ih =>
    intro w hw
    simp only [run] at hw
    rw [List.mem_append] at hw
    cases hw with
    | inl hw =>
      cases e with
      | nextPage => simp [step] at hw
      | prevPage => simp [step] at hw
      | tocClick c i => simp [step] at hw
      | paginationUpdate p t n =>
        simp only [step, handlePaginationUpdate] at hw
        exact saveReadingPosition_ok s n h w hw
    | inr hw =>
      exact ih (step s e).1 (step_preserves_nonneg s e h) w hw

/-- Witness for persisted_positions_wellformed: the single write of a
one-event run has the documented shape. -/
theorem persisted_positions_wellformed_witness :
    positionOk ("reading-b",
      [("bookKey", JsValue.str "b"), ("contentPath", JsValue.str "x"),
       ("page", JsValue.num 0), ("timestamp", JsValue.num 9)]) = true :=
  persisted_positions_wellformed ⟨"b", "epub://b/x", 0, 1, ["x"], 0⟩ (by decide)
    [ReaderEvent.paginationUpdate 2 5 9] _ (by decide)

end EpubReader
